import Mathlib

/-!
Shallow embedding of the snake-game core (`src/game/line.rs`,
`src/game/maths.rs`, `src/game/state.rs`).  Floating-point scalars are
modelled by `ℚ` (exact arithmetic); components of the repository that are
not among the given sources (`direction.rs`, `coords.rs`, `snake.rs`,
`food.rs`, `consts.rs`) are modelled from the specification and marked as
such in their doc comments.
-/

namespace Snaek

/-- Modelled from the spec: `direction.rs` is not among the sources.
§3: one of UP, DOWN, LEFT, RIGHT. -/
inductive Direction where
  | UP
  | DOWN
  | LEFT
  | RIGHT
deriving DecidableEq, Repr

/-- Modelled from the spec: `coords.rs` is not among the sources.
§3: a 2D coordinate supporting vector addition and scalar multiplication. -/
structure Coords where
  x : ℚ
  y : ℚ
deriving DecidableEq, Repr

instance : Add Coords := ⟨fun a b => ⟨a.x + b.x, a.y + b.y⟩⟩

instance : HMul Coords ℚ Coords := ⟨fun a c => ⟨a.x * c, a.y * c⟩⟩

theorem Coords.add_def (a b : Coords) : a + b = ⟨a.x + b.x, a.y + b.y⟩ := rfl

theorem Coords.mul_def (a : Coords) (c : ℚ) : a * c = ⟨a.x * c, a.y * c⟩ := rfl

/-- Modelled from the spec: `direction.rs` is not among the sources.
§4.1: the unit-vector mapping; axis orientations (UP = negative y,
LEFT = negative x) match the per-axis updates of `grow`/`shrink` in
`line.rs`. -/
def Direction.as_coords : Direction → Coords
  | .UP => ⟨0, -1⟩
  | .DOWN => ⟨0, 1⟩
  | .LEFT => ⟨-1, 0⟩
  | .RIGHT => ⟨1, 0⟩

/-- Modelled from the spec: `direction.rs` is not among the sources.
§3: two directions are colinear iff they lie on the same axis. -/
def Direction.is_colinear (a b : Direction) : Bool :=
  match a, b with
  | .UP, .UP | .UP, .DOWN | .DOWN, .UP | .DOWN, .DOWN => true
  | .LEFT, .LEFT | .LEFT, .RIGHT | .RIGHT, .LEFT | .RIGHT, .RIGHT => true
  | _, _ => false

/-- `maths::clamp` from `maths.rs`. -/
def clamp (x min max : ℚ) : ℚ :=
  if x > max then max
  else if x < min then min
  else x

/-- `maths::maxf` from `maths.rs`. -/
def maxf (x y : ℚ) : ℚ := if x > y then x else y

/-- `maths::minf` from `maths.rs`. -/
def minf (x y : ℚ) : ℚ := if x > y then y else x

/-- Modelled from the spec: `consts.rs` is not among the sources.  §6 says the
creature thickness is a fixed configuration constant; the concrete value is
arbitrary here and no claim depends on it. -/
def SNAKE_WIDTH : ℚ := 10

/-- `consts::SNAKE_HALF_WIDTH`, half of `SNAKE_WIDTH`. -/
def SNAKE_HALF_WIDTH : ℚ := SNAKE_WIDTH / 2

/-- Modelled from the spec: `consts.rs` is not among the sources.  §4.5 /
§6: fixed per-food growth amount; concrete value arbitrary. -/
def FOOD_SIZE : ℚ := 30

/-- Modelled from the spec: `consts.rs` is not among the sources.  §4.5:
fixed speed constant; concrete value arbitrary. -/
def SPEED : ℚ := 200

/-- Modelled from the spec: `consts.rs` is not among the sources.  §5: the
fixed input-processing interval; concrete positive value arbitrary. -/
def SECS_PER_INPUT_UPDATE : ℚ := 1/5

/-- Modelled from the spec: `consts.rs` is not among the sources.  §6: the
fixed field bounds rectangle, with origin (0,0); concrete value arbitrary. -/
def SCREEN_SIZE : Coords := ⟨800, 600⟩

/-- `ggez::graphics::Rect` as used by `line.rs`: position plus extent. -/
structure Rect where
  x : ℚ
  y : ℚ
  w : ℚ
  h : ℚ
deriving DecidableEq, Repr

/-- `Line` from `line.rs`: `beg`, `end`, `dir`.  The field `end` is a Lean
keyword, hence the guillemets. -/
structure Line where
  beg : Coords
  «end» : Coords
  dir : Direction
deriving DecidableEq, Repr

/-- `Line::new` from `line.rs`: `beg = pos`, `end = pos + dir.as_coords() * 0.01`. -/
def Line.new (pos : Coords) (dir : Direction) : Line :=
  { beg := pos, «end» := pos + dir.as_coords * (1/100 : ℚ), dir := dir }

/-- `Line::size` from `line.rs`: absolute extent along the segment's own axis. -/
def Line.size (l : Line) : ℚ :=
  match l.dir with
  | .UP | .DOWN => |l.«end».y - l.beg.y|
  | .LEFT | .RIGHT => |l.«end».x - l.beg.x|

/-- `Growable::grow` for `Line` from `line.rs`: moves `end` by `dist` along
`dir` and returns leftover `0`.  The Rust method mutates in place; here the
updated line is returned together with the leftover. -/
def Line.grow (l : Line) (dist : ℚ) : Line × ℚ :=
  let e := l.«end»
  let e' : Coords :=
    match l.dir with
    | .UP => ⟨e.x, e.y - dist⟩
    | .DOWN => ⟨e.x, e.y + dist⟩
    | .LEFT => ⟨e.x - dist, e.y⟩
    | .RIGHT => ⟨e.x + dist, e.y⟩
  ({ l with «end» := e' }, 0)

/-- `Growable::shrink` for `Line` from `line.rs`: computes the leftover
`clamp(dist - size, 0, dist)` from the pre-move size, then moves `beg` by the
full `dist` along `dir` (the movement itself is not clamped). -/
def Line.shrink (l : Line) (dist : ℚ) : Line × ℚ :=
  let left := clamp (dist - l.size) 0 dist
  let b := l.beg
  let b' : Coords :=
    match l.dir with
    | .UP => ⟨b.x, b.y - dist⟩
    | .DOWN => ⟨b.x, b.y + dist⟩
    | .LEFT => ⟨b.x - dist, b.y⟩
    | .RIGHT => ⟨b.x + dist, b.y⟩
  ({ l with beg := b' }, left)

/-- Directed extent of a segment from `beg` to `end` measured along `dir`:
positive when `end` lies ahead of `beg` in the travel direction, negative
when `beg` has crossed past `end`.  (Not a Rust method; the measurement the
claims about `shrink` quantify over.) -/
def Line.extent (l : Line) : ℚ :=
  match l.dir with
  | .UP => l.beg.y - l.«end».y
  | .DOWN => l.«end».y - l.beg.y
  | .LEFT => l.beg.x - l.«end».x
  | .RIGHT => l.«end».x - l.beg.x

/-- `Renderable::get_bbox` for `Line` from `line.rs`. -/
def Line.get_bbox (l : Line) : Rect :=
  match l.dir with
  | .UP =>
    ⟨l.«end».x - SNAKE_HALF_WIDTH, l.«end».y, SNAKE_WIDTH, |l.«end».y - l.beg.y|⟩
  | .DOWN =>
    ⟨l.«end».x - SNAKE_HALF_WIDTH, l.beg.y, SNAKE_WIDTH, |l.«end».y - l.beg.y|⟩
  | .LEFT =>
    ⟨l.«end».x, l.«end».y - SNAKE_HALF_WIDTH, |l.«end».x - l.beg.x|, SNAKE_WIDTH⟩
  | .RIGHT =>
    ⟨l.beg.x, l.«end».y - SNAKE_HALF_WIDTH, |l.«end».x - l.beg.x|, SNAKE_WIDTH⟩

/-- Modelled from the spec: rectangle intersection used by the collision
queries (§4.3): only positive-area overlap counts, edge-touching does not. -/
def Rect.overlaps (a b : Rect) : Bool :=
  decide (a.x < b.x + b.w) && decide (b.x < a.x + a.w) &&
  decide (a.y < b.y + b.h) && decide (b.y < a.y + a.h)

/-- Modelled from the spec: `snake.rs` is not among the sources.  §3 / §4.3:
the Body is an ordered sequence of segments (here tail first, the last list
entry is the head segment) together with the current travel direction. -/
structure Snake where
  segments : List Line
  dir : Direction
deriving DecidableEq, Repr

/-- Modelled from the spec: `snake.rs` is not among the sources.  §3
lifecycle: a Body starts as one degenerate segment at the starting point
with a default direction. -/
def Snake.new (x y : ℚ) : Snake :=
  { segments := [Line.new ⟨x, y⟩ .RIGHT], dir := .RIGHT }

/-- Modelled from the spec: `snake.rs` is not among the sources.  §4.3
`CollidesWithBox`: some segment's bounding box intersects the given box. -/
def Snake.collide (s : Snake) (box : Rect) : Bool :=
  s.segments.any fun seg => seg.get_bbox.overlaps box

/-- Modelled from the spec: `snake.rs` is not among the sources.  §4.3
`SelfCollides`: the head segment's bounding box intersects the bounding box
of a non-adjacent segment (the head and its immediate neighbour excluded). -/
def Snake.self_collide (s : Snake) : Bool :=
  match s.segments.getLast? with
  | none => false
  | some hd => s.segments.dropLast.dropLast.any fun seg =>
      hd.get_bbox.overlaps seg.get_bbox

/-- Modelled from the spec: `snake.rs` is not among the sources.  §4.3
`WallCollides`: the head segment's bounding box lies partly or fully outside
the field bounds. -/
def Snake.wall_collide (s : Snake) : Bool :=
  match s.segments.getLast? with
  | none => false
  | some hd =>
    let b := hd.get_bbox
    decide (b.x < 0) || decide (b.y < 0) ||
    decide (SCREEN_SIZE.x < b.x + b.w) || decide (SCREEN_SIZE.y < b.y + b.h)

/-- Modelled from the spec: `snake.rs` is not among the sources.  §4.3
`GrowAndMove`: extend the head segment by `dist`; the tail is untouched. -/
def Snake.grow (s : Snake) (dist : ℚ) : Snake :=
  match s.segments.getLast? with
  | none => s
  | some hd => { s with segments := s.segments.dropLast ++ [(hd.grow dist).1] }

/-- Modelled from the spec: `snake.rs` is not among the sources.  §4.3 `Move`
step 2: shrink the tail-most segment; while the returned remainder is
nonzero, drop that segment and apply the remainder to the next one. -/
def shrink_tail : List Line → ℚ → List Line
  | [], _ => []
  | t :: rest, d =>
    let p := t.shrink d
    if p.2 == 0 then p.1 :: rest else shrink_tail rest p.2

/-- Modelled from the spec: `snake.rs` is not among the sources.  §4.3
`Move(distance)`: grow the head by the distance, then retract the same
distance at the tail. -/
def Snake.do_move (s : Snake) (dist : ℚ) : Snake :=
  let grown := s.grow dist
  { grown with segments := shrink_tail grown.segments dist }

/-- Modelled from the spec: `food.rs` is not among the sources.  §3: Food is
a point plus a fixed-size bounding box derived from it. -/
structure Food where
  pos : Coords
deriving DecidableEq, Repr

/-- Modelled from the spec: the fixed-size bounding box derived from the
food's point. -/
def Food.bbox (f : Food) : Rect := ⟨f.pos.x, f.pos.y, FOOD_SIZE, FOOD_SIZE⟩

/-- `GameState` from `state.rs`. -/
inductive GameState where
  | PreGame
  | Game
deriving DecidableEq, Repr

/-- `GameData` from `state.rs`, restricted to the fields the core logic
touches (text/resource/clock fields omitted).  The input queue is stored
oldest first; a newly arriving input is appended at the back, so the back is
the most recently added entry (`VecDeque` push order per §4.4).  `score` is
a `u32` in the source, modelled as `ℕ`; the increment in `update_snake`
therefore wraps modulo `2 ^ 32` (release-mode Rust `+=`; debug builds panic
at the same input). -/
structure GameData where
  snake : Snake
  food : Food
  inputs : List Direction
  input_timer : ℚ
  score : ℕ
  state : GameState
deriving DecidableEq, Repr

/-- The reversed-queue search of `update_input` in `state.rs`:
`it::rev(&self.inputs).find_position(|dir| !dir.is_colinear(self.snake.dir))`,
returning the position (0 = first element of the reversed list, i.e. the
most recent input) and the found direction. -/
def find_turn : List Direction → Direction → Option (ℕ × Direction)
  | [], _ => none
  | d :: ds, cur =>
    if d.is_colinear cur then (find_turn ds cur).map fun p => (p.1 + 1, p.2)
    else some (0, d)

/-- `GameData::update_input` from `state.rs`.  The timer accumulates
`time_delta`; below the threshold nothing else happens.  At or above it, the
queue is scanned newest-to-oldest: on a hit the queue is truncated to the
entries older than the hit, the snake's direction is replaced and the timer
reset to 0; otherwise the queue is cleared and the timer keeps its
accumulated value. -/
def GameData.update_input (g : GameData) (time_delta : ℚ) : GameData :=
  let timer := g.input_timer + time_delta
  if timer < SECS_PER_INPUT_UPDATE then { g with input_timer := timer }
  else
    match find_turn g.inputs.reverse g.snake.dir with
    | some (idx, new_dir) =>
      let truncated_len := g.inputs.length - idx - 1
      { g with
          inputs := g.inputs.take truncated_len
          snake := { g.snake with dir := new_dir }
          input_timer := 0 }
    | none => { g with inputs := [], input_timer := timer }

/-- Whether a call `update_input(time_delta)` on state `g` reaches the queue
scan (does not take the early return in `state.rs`). -/
def GameData.scan_runs (g : GameData) (time_delta : ℚ) : Bool :=
  decide (SECS_PER_INPUT_UPDATE ≤ g.input_timer + time_delta)

/-- The per-call scan-execution flags produced by a sequence of
`update_input` calls with the given time deltas. -/
def scans_during (g : GameData) : List ℚ → List Bool
  | [] => []
  | d :: ds => g.scan_runs d :: scans_during (g.update_input d) ds

/-- The `while self.snake.collide(&self.food.bbox) { self.food = Food::random() }`
loops of `state.rs`, with the successive results of `Food::random()` supplied
by the list `rng`; `none` when the supply runs out while still colliding. -/
def regen_food (s : Snake) : Food → List Food → Option Food
  | f, [] => if s.collide f.bbox then none else some f
  | f, r :: rs => if s.collide f.bbox then regen_food s r rs else some f

/-- `GameData::reset` from `state.rs`: fresh snake at the screen centre,
fresh food redrawn while it collides with the snake, inputs cleared, score
zeroed, state back to `PreGame`.  `input_timer` is not assigned. -/
def GameData.reset (g : GameData) (rng : List Food) : Option GameData :=
  match rng with
  | [] => none
  | r :: rs =>
    let s := Snake.new (SCREEN_SIZE.x / 2) (SCREEN_SIZE.y / 2)
    (regen_food s r rs).map fun f =>
      { g with
          snake := s
          food := f
          inputs := []
          score := 0
          state := .PreGame }

/-- `GameData::update_snake` from `state.rs`: food collision first (grow,
score, redraw food while colliding), else self/wall collision (reset), else
move by `time_delta * SPEED`.  `rng` supplies the results of
`Food::random()`. -/
def GameData.update_snake (g : GameData) (time_delta : ℚ) (rng : List Food) :
    Option GameData :=
  if g.snake.collide g.food.bbox then
    let s := g.snake.grow FOOD_SIZE
    (regen_food s g.food rng).map fun f =>
      { g with snake := s, food := f, score := (g.score + 1) % 2 ^ 32 }
  else if g.snake.self_collide || g.snake.wall_collide then
    g.reset rng
  else
    some { g with snake := g.snake.do_move (time_delta * SPEED) }

theorem Line.size_nonneg (l : Line) : 0 ≤ l.size := by
  obtain ⟨b, e, dir⟩ := l
  cases dir <;> simp [Line.size]

/-- C9: `Line::new(p, d)` produces `beg = p` and
`end = p + d.as_coords() * 0.01`, and the fresh segment's `size()` is exactly
`0.01`. -/
theorem new_beg_end_size (p : Coords) (d : Direction) :
    (Line.new p d).beg = p ∧
    (Line.new p d).«end» = p + d.as_coords * (1/100 : ℚ) ∧
    (Line.new p d).size = 1/100 := by
  refine ⟨rfl, rfl, ?_⟩
  cases d <;>
    simp [Line.new, Line.size, Direction.as_coords, Coords.add_def,
      Coords.mul_def]

/-- C8: `grow(d)` leaves `beg` and `dir` unchanged, translates `end` by
exactly `d` in the segment's direction, and returns `0`. -/
theorem grow_translates_end (l : Line) (d : ℚ) :
    (l.grow d).1.beg = l.beg ∧ (l.grow d).1.dir = l.dir ∧
    (l.grow d).1.«end» = l.«end» + l.dir.as_coords * d ∧
    (l.grow d).2 = 0 := by
  obtain ⟨b, e, dir⟩ := l
  refine ⟨rfl, rfl, ?_, rfl⟩
  cases dir <;>
    simp [Line.grow, Direction.as_coords, Coords.add_def, Coords.mul_def] <;>
    ring

/-- C5: `shrink(d)` leaves `end` and `dir` unchanged and returns
`clamp(d - size(), 0, d)` computed from the pre-retraction size; in
particular, for `0 ≤ d` the remainder is `0` when `d ≤ size()` and
`d - size()` when `size() < d`. -/
theorem shrink_returns_clamp (l : Line) (d : ℚ) :
    (l.shrink d).2 = clamp (d - l.size) 0 d ∧
    (l.shrink d).1.«end» = l.«end» ∧
    (l.shrink d).1.dir = l.dir ∧
    (0 ≤ d → d ≤ l.size → (l.shrink d).2 = 0) ∧
    (0 ≤ d → l.size < d → (l.shrink d).2 = d - l.size) := by
  have hs : 0 ≤ l.size := Line.size_nonneg l
  have hret : (l.shrink d).2 = clamp (d - l.size) 0 d := rfl
  refine ⟨rfl, rfl, rfl, ?_, ?_⟩
  · intro h0 hle
    rw [hret]
    unfold clamp
    split_ifs <;> linarith
  · intro h0 hlt
    rw [hret]
    unfold clamp
    split_ifs <;> linarith

/-- Witness for C5 at a concrete segment of size 3: `shrink 1` returns `0`
and `shrink 5` returns `5 - 3`. -/
theorem shrink_returns_clamp_witness :
    ((Line.mk ⟨0, 0⟩ ⟨3, 0⟩ .RIGHT).shrink 1).2 = 0 ∧
    ((Line.mk ⟨0, 0⟩ ⟨3, 0⟩ .RIGHT).shrink 5).2 =
      5 - (Line.mk ⟨0, 0⟩ ⟨3, 0⟩ .RIGHT).size :=
  ⟨(shrink_returns_clamp (Line.mk ⟨0, 0⟩ ⟨3, 0⟩ .RIGHT) 1).2.2.2.1
      (by norm_num) (by norm_num [Line.size]),
   (shrink_returns_clamp (Line.mk ⟨0, 0⟩ ⟨3, 0⟩ .RIGHT) 5).2.2.2.2
      (by norm_num) (by norm_num [Line.size])⟩

/-- C6: `grow(d)` followed by `shrink(d)` leaves `size()` unchanged (exact
in the rational model of the float arithmetic). -/
theorem grow_shrink_conserves_size (l : Line) (d : ℚ) (_h : 0 ≤ d) :
    ((l.grow d).1.shrink d).1.size = l.size := by
  obtain ⟨b, e, dir⟩ := l
  cases dir <;> simp [Line.grow, Line.shrink, Line.size]

/-- Witness for C6 at a concrete segment and distance. -/
theorem grow_shrink_conserves_size_witness :
    (0 : ℚ) ≤ 5 ∧
    (((Line.mk ⟨0, 0⟩ ⟨3, 0⟩ .RIGHT).grow 5).1.shrink 5).1.size =
      (Line.mk ⟨0, 0⟩ ⟨3, 0⟩ .RIGHT).size :=
  ⟨by norm_num,
   grow_shrink_conserves_size (Line.mk ⟨0, 0⟩ ⟨3, 0⟩ .RIGHT) 5 (by norm_num)⟩

/-- Counterexample to C1 as stated: for the unit segment from (0,0) to (1,0)
pointing RIGHT and the non-negative distance `2` (which exceeds `size() = 1`),
`shrink(2)` moves `beg` to (2,0), strictly past `end`: the extent from `beg`
to `end` along the direction is negative. -/
theorem shrink_can_cross_end :
    (0 : ℚ) ≤ 2 ∧
    (Line.mk ⟨0, 0⟩ ⟨1, 0⟩ .RIGHT).size < 2 ∧
    ((Line.mk ⟨0, 0⟩ ⟨1, 0⟩ .RIGHT).shrink 2).1.extent < 0 := by
  refine ⟨by norm_num, ?_, ?_⟩ <;>
    norm_num [Line.shrink, Line.extent, Line.size, clamp]

/-- C1 (amended): when the requested distance does not exceed the segment's
size, `shrink` does not retract `beg` past `end`: for a well-formed segment
(non-negative extent) and `0 ≤ d ≤ size()`, the extent stays non-negative.
(When `d` exceeds `size()`, `beg` is moved the full distance and crosses
`end`; the positive returned remainder signals the caller to drop the
segment.) -/
theorem shrink_within_size_keeps_beg_behind_end (l : Line) (d : ℚ)
    (_hd : 0 ≤ d) (hsize : d ≤ l.size) (hext : 0 ≤ l.extent) :
    0 ≤ (l.shrink d).1.extent := by
  obtain ⟨b, e, dir⟩ := l
  cases dir with
  | UP =>
    simp only [Line.shrink, Line.extent, Line.size] at *
    rw [abs_of_nonpos (by linarith)] at hsize
    linarith
  | DOWN =>
    simp only [Line.shrink, Line.extent, Line.size] at *
    rw [abs_of_nonneg (by linarith)] at hsize
    linarith
  | LEFT =>
    simp only [Line.shrink, Line.extent, Line.size] at *
    rw [abs_of_nonpos (by linarith)] at hsize
    linarith
  | RIGHT =>
    simp only [Line.shrink, Line.extent, Line.size] at *
    rw [abs_of_nonneg (by linarith)] at hsize
    linarith

/-- Witness for the amended C1 at a concrete segment and distance. -/
theorem shrink_within_size_keeps_beg_behind_end_witness :
    (0 : ℚ) ≤ 1 ∧ (1 : ℚ) ≤ (Line.mk ⟨0, 0⟩ ⟨3, 0⟩ .RIGHT).size ∧
    0 ≤ (Line.mk ⟨0, 0⟩ ⟨3, 0⟩ .RIGHT).extent ∧
    0 ≤ ((Line.mk ⟨0, 0⟩ ⟨3, 0⟩ .RIGHT).shrink 1).1.extent :=
  ⟨by norm_num, by norm_num [Line.size], by norm_num [Line.extent],
   shrink_within_size_keeps_beg_behind_end (Line.mk ⟨0, 0⟩ ⟨3, 0⟩ .RIGHT) 1
     (by norm_num) (by norm_num [Line.size]) (by norm_num [Line.extent])⟩

theorem update_input_below_threshold (g : GameData) (d : ℚ)
    (h : g.input_timer + d < SECS_PER_INPUT_UPDATE) :
    g.update_input d = { g with input_timer := g.input_timer + d } := by
  simp [GameData.update_input, h]

theorem no_scan_of_accum_lt (ds : List ℚ) :
    ∀ g : GameData, (∀ x ∈ ds, 0 ≤ x) →
      g.input_timer + ds.sum < SECS_PER_INPUT_UPDATE →
      ∀ b ∈ scans_during g ds, b = false := by
  induction ds with
  | nil =>
    intro g _ _ b hb
    simp [scans_during] at hb
  | cons d ds ih =>
    intro g hpos hsum b hb
    have hds0 : 0 ≤ ds.sum :=
      List.sum_nonneg fun x hx => hpos x (by simp [hx])
    have hsum' : g.input_timer + d + ds.sum < SECS_PER_INPUT_UPDATE := by
      simp [List.sum_cons] at hsum
      linarith
    have hlt : g.input_timer + d < SECS_PER_INPUT_UPDATE := by linarith
    have hup : g.update_input d = { g with input_timer := g.input_timer + d } :=
      update_input_below_threshold g d hlt
    simp only [scans_during, List.mem_cons] at hb
    rcases hb with hb | hb
    · subst hb
      simp only [GameData.scan_runs, decide_eq_false_iff_not, not_le]
      exact hlt
    · rw [hup] at hb
      refine ih _ (fun x hx => hpos x (by simp [hx])) ?_ b hb
      simpa using hsum'

def c2_g : GameData :=
  { snake := Snake.new 400 300
    food := ⟨⟨0, 0⟩⟩
    inputs := []
    input_timer := 0
    score := 0
    state := .PreGame }

/-- Counterexample to C2 as stated: starting from a fresh state with an
empty queue, a first call with `time_delta = SECS_PER_INPUT_UPDATE` executes
the queue scan, and the immediately following call already executes the scan
again after only `1/100 < SECS_PER_INPUT_UPDATE` further accumulated time,
because a scan that applies no turn does not reset the timer. -/
theorem scan_reruns_without_interval :
    c2_g.scan_runs SECS_PER_INPUT_UPDATE = true ∧
    (c2_g.update_input SECS_PER_INPUT_UPDATE).scan_runs (1/100) = true ∧
    (1/100 : ℚ) < SECS_PER_INPUT_UPDATE := by
  refine ⟨?_, ?_, by norm_num [SECS_PER_INPUT_UPDATE]⟩ <;>
    norm_num [c2_g, GameData.scan_runs, GameData.update_input, find_turn,
      SECS_PER_INPUT_UPDATE, Snake.new]

/-- C2 (amended): the fixed-interval guarantee holds for scans that apply a
turn: whenever `update_input` executes the scan and the scan finds a
non-colinear queued direction, `input_timer` is reset to 0 and no later call
executes the scan until at least `SECS_PER_INPUT_UPDATE` of accumulated
`time_delta` has elapsed.  (A scan that applies no turn does not reset the
timer, so the very next call may scan again.) -/
theorem turn_scan_rate_limited (g : GameData) (d : ℚ) (ds : List ℚ)
    (hscan : g.scan_runs d = true)
    (hturn : (find_turn g.inputs.reverse g.snake.dir).isSome = true)
    (hpos : ∀ x ∈ ds, 0 ≤ x)
    (hsum : ds.sum < SECS_PER_INPUT_UPDATE) :
    (g.update_input d).input_timer = 0 ∧
    ∀ b ∈ scans_during (g.update_input d) ds, b = false := by
  have hge : ¬(g.input_timer + d < SECS_PER_INPUT_UPDATE) := by
    simp only [GameData.scan_runs, decide_eq_true_eq] at hscan
    exact not_lt.mpr hscan
  obtain ⟨⟨idx, nd⟩, hfind⟩ := Option.isSome_iff_exists.mp hturn
  have hup : g.update_input d =
      { g with
          inputs := g.inputs.take (g.inputs.length - idx - 1)
          snake := { g.snake with dir := nd }
          input_timer := 0 } := by
    unfold GameData.update_input
    rw [if_neg hge, hfind]
  refine ⟨by rw [hup], ?_⟩
  refine no_scan_of_accum_lt ds _ hpos ?_
  rw [hup]
  simpa using hsum

def c2_turn_g : GameData :=
  { snake := Snake.new 400 300
    food := ⟨⟨0, 0⟩⟩
    inputs := [.UP]
    input_timer := 0
    score := 0
    state := .Game }

/-- Witness for the amended C2: after a scan that turns the snake UP, a
subsequent call with a small delta does not execute the scan. -/
theorem turn_scan_rate_limited_witness :
    c2_turn_g.scan_runs 1 = true ∧
    (find_turn c2_turn_g.inputs.reverse c2_turn_g.snake.dir).isSome = true ∧
    (∀ x ∈ [(1/100 : ℚ)], 0 ≤ x) ∧
    [(1/100 : ℚ)].sum < SECS_PER_INPUT_UPDATE ∧
    ((c2_turn_g.update_input 1).input_timer = 0 ∧
      ∀ b ∈ scans_during (c2_turn_g.update_input 1) [(1/100 : ℚ)], b = false) := by
  have h1 : c2_turn_g.scan_runs 1 = true := by
    norm_num [c2_turn_g, GameData.scan_runs, SECS_PER_INPUT_UPDATE]
  have h2 : (find_turn c2_turn_g.inputs.reverse c2_turn_g.snake.dir).isSome = true := by
    simp [c2_turn_g, find_turn, Direction.is_colinear, Snake.new]
  have h3 : ∀ x ∈ [(1/100 : ℚ)], 0 ≤ x := by
    intro x hx
    simp at hx
    norm_num [hx]
  have h4 : [(1/100 : ℚ)].sum < SECS_PER_INPUT_UPDATE := by
    norm_num [SECS_PER_INPUT_UPDATE]
  exact ⟨h1, h2, h3, h4, turn_scan_rate_limited c2_turn_g 1 [(1/100 : ℚ)] h1 h2 h3 h4⟩

theorem find_turn_append (pre : List Direction) (cur nd : Direction)
    (rest : List Direction)
    (hpre : ∀ x ∈ pre, x.is_colinear cur = true)
    (hnd : nd.is_colinear cur = false) :
    find_turn (pre ++ nd :: rest) cur = some (pre.length, nd) := by
  induction pre with
  | nil => simp [find_turn, hnd]
  | cons a as ih =>
    have ha : a.is_colinear cur = true := hpre a (by simp)
    simp [find_turn, ha, ih fun x hx => hpre x (by simp [hx])]

theorem find_turn_none (l : List Direction) (cur : Direction)
    (h : ∀ x ∈ l, x.is_colinear cur = true) :
    find_turn l cur = none := by
  induction l with
  | nil => rfl
  | cons a as ih =>
    simp [find_turn, h a (by simp), ih fun x hx => h x (by simp [hx])]

/-- C3: when the scan runs, if the queue splits as
`older ++ nd :: newer` with `nd` not colinear with the current direction and
everything newer than `nd` colinear, then `nd` becomes the snake's direction
and exactly `older` remains queued; if every queued direction is colinear
with the current direction (in particular if the queue is empty), the queue
is emptied and the direction is unchanged. -/
theorem update_input_scan_spec (g : GameData) (d : ℚ)
    (hscan : g.scan_runs d = true) :
    (∀ older nd newer, g.inputs = older ++ nd :: newer →
        nd.is_colinear g.snake.dir = false →
        (∀ x ∈ newer, x.is_colinear g.snake.dir = true) →
        (g.update_input d).snake.dir = nd ∧ (g.update_input d).inputs = older) ∧
    ((∀ x ∈ g.inputs, x.is_colinear g.snake.dir = true) →
        (g.update_input d).inputs = [] ∧
        (g.update_input d).snake.dir = g.snake.dir) := by
  have hge : ¬(g.input_timer + d < SECS_PER_INPUT_UPDATE) := by
    simp only [GameData.scan_runs, decide_eq_true_eq] at hscan
    exact not_lt.mpr hscan
  constructor
  · intro older nd newer heq hnd hnewer
    have hrev : g.inputs.reverse = newer.reverse ++ nd :: older.reverse := by
      rw [heq]
      simp
    have hfind : find_turn g.inputs.reverse g.snake.dir =
        some (newer.length, nd) := by
      rw [hrev]
      have := find_turn_append newer.reverse g.snake.dir nd older.reverse
        (fun x hx => hnewer x (by simpa using hx)) hnd
      simpa using this
    have hlen : (older ++ nd :: newer).length - newer.length - 1 = older.length := by
      simp only [List.length_append, List.length_cons]
      omega
    unfold GameData.update_input
    rw [if_neg hge, hfind]
    refine ⟨rfl, ?_⟩
    simp only [heq, hlen]
    exact List.take_left older (nd :: newer)
  · intro hall
    have hfind : find_turn g.inputs.reverse g.snake.dir = none :=
      find_turn_none _ _ fun x hx => hall x (by simpa using hx)
    unfold GameData.update_input
    rw [if_neg hge, hfind]
    exact ⟨rfl, rfl⟩

def c3_g : GameData :=
  { snake := Snake.new 400 300
    food := ⟨⟨0, 0⟩⟩
    inputs := [.RIGHT, .UP, .LEFT, .DOWN]
    input_timer := 0
    score := 0
    state := .Game }

/-- Witness for C3: current direction RIGHT, queue (oldest first)
RIGHT, UP, LEFT, DOWN: the scan selects the newest entry DOWN and retains
the older RIGHT, UP, LEFT. -/
theorem update_input_scan_spec_witness :
    c3_g.scan_runs 1 = true ∧
    (c3_g.update_input 1).snake.dir = .DOWN ∧
    (c3_g.update_input 1).inputs = [.RIGHT, .UP, .LEFT] := by
  have h : c3_g.scan_runs 1 = true := by
    norm_num [c3_g, GameData.scan_runs, SECS_PER_INPUT_UPDATE]
  have hmain :=
    (update_input_scan_spec c3_g 1 h).1 [.RIGHT, .UP, .LEFT] .DOWN [] rfl
      (by simp [c3_g, Direction.is_colinear, Snake.new]) (by simp)
  exact ⟨h, hmain.1, hmain.2⟩

theorem regen_food_no_collide (s : Snake) (rng : List Food) :
    ∀ f f', regen_food s f rng = some f' → s.collide f'.bbox = false := by
  induction rng with
  | nil =>
    intro f f' h
    cases hc : s.collide f.bbox <;> simp [regen_food, hc] at h
    subst h
    exact hc
  | cons r rs ih =>
    intro f f' h
    cases hc : s.collide f.bbox <;> simp [regen_food, hc] at h
    · subst h
      exact hc
    · exact ih r f' h

theorem update_snake_food_eq (g : GameData) (td : ℚ) (rng : List Food)
    (hcol : g.snake.collide g.food.bbox = true) :
    g.update_snake td rng =
      (regen_food (g.snake.grow FOOD_SIZE) g.food rng).map fun f =>
        { g with
            snake := g.snake.grow FOOD_SIZE
            food := f
            score := (g.score + 1) % 2 ^ 32 } := by
  simp [GameData.update_snake, hcol]

theorem reset_fields (g : GameData) (rng : List Food) (g' : GameData)
    (h : g.reset rng = some g') :
    g'.snake = Snake.new (SCREEN_SIZE.x / 2) (SCREEN_SIZE.y / 2) ∧
    g'.inputs = [] ∧ g'.score = 0 ∧ g'.state = .PreGame ∧
    g'.input_timer = g.input_timer ∧
    g'.snake.collide g'.food.bbox = false := by
  cases rng with
  | nil => simp [GameData.reset] at h
  | cons r rs =>
    simp only [GameData.reset, Option.map_eq_some'] at h
    obtain ⟨f, hf, hg'⟩ := h
    subst hg'
    exact ⟨rfl, rfl, rfl, rfl, rfl, regen_food_no_collide _ rs r f hf⟩

/-- C4 (amended): `update_snake` takes exactly one of three mutually
exclusive branches, in priority order.  Food collision: the snake grows by
`FOOD_SIZE`, the score is incremented with `u32` wrap-around — it increases
by exactly one modulo `2 ^ 32`, hence by exactly one whenever
`score + 1 < 2 ^ 32` — the food is redrawn until it no longer collides with
the (grown) snake, and no movement is applied.  Else self- or
wall-collision: the call performs exactly the reset (fresh snake at the
screen centre, fresh non-colliding food, cleared queue, zero score,
`PreGame`).  Else: the snake moves by `time_delta * SPEED`. -/
theorem update_snake_branches (g : GameData) (td : ℚ) (rng : List Food) :
    (g.snake.collide g.food.bbox = true →
      ∀ g', g.update_snake td rng = some g' →
        g'.snake = g.snake.grow FOOD_SIZE ∧
        g'.score = (g.score + 1) % 2 ^ 32 ∧
        (g.score + 1 < 2 ^ 32 → g'.score = g.score + 1) ∧
        g'.snake.collide g'.food.bbox = false ∧
        g'.inputs = g.inputs ∧ g'.state = g.state ∧
        g'.input_timer = g.input_timer) ∧
    (g.snake.collide g.food.bbox = false →
      (g.snake.self_collide = true ∨ g.snake.wall_collide = true) →
      g.update_snake td rng = g.reset rng ∧
      ∀ g', g.reset rng = some g' →
        g'.snake = Snake.new (SCREEN_SIZE.x / 2) (SCREEN_SIZE.y / 2) ∧
        g'.inputs = [] ∧ g'.score = 0 ∧ g'.state = .PreGame ∧
        g'.snake.collide g'.food.bbox = false) ∧
    (g.snake.collide g.food.bbox = false →
      g.snake.self_collide = false → g.snake.wall_collide = false →
      g.update_snake td rng =
        some { g with snake := g.snake.do_move (td * SPEED) }) := by
  refine ⟨?_, ?_, ?_⟩
  · intro hcol g' h
    rw [update_snake_food_eq g td rng hcol] at h
    simp only [Option.map_eq_some'] at h
    obtain ⟨f, hf, hg'⟩ := h
    subst hg'
    exact ⟨rfl, rfl, fun hlt => Nat.mod_eq_of_lt hlt,
      regen_food_no_collide _ rng g.food f hf, rfl, rfl, rfl⟩
  · intro hcol hsw
    have heq : g.update_snake td rng = g.reset rng := by
      rcases hsw with h | h <;> simp [GameData.update_snake, hcol, h]
    refine ⟨heq, ?_⟩
    intro g' h
    have := reset_fields g rng g' h
    exact ⟨this.1, this.2.1, this.2.2.1, this.2.2.2.1, this.2.2.2.2.2⟩
  · intro hcol hself hwall
    simp [GameData.update_snake, hcol, hself, hwall]

def c4_g : GameData :=
  { snake := Snake.new 400 300
    food := ⟨⟨0, 0⟩⟩
    inputs := []
    input_timer := 0
    score := 0
    state := .Game }

theorem getLast?_one (a : Line) : [a].getLast? = some a := rfl

/-- Witness for C4, exercising the movement branch at a concrete state with
no collision of any kind. -/
theorem update_snake_branches_witness :
    c4_g.snake.collide c4_g.food.bbox = false ∧
    c4_g.snake.self_collide = false ∧
    c4_g.snake.wall_collide = false ∧
    c4_g.update_snake 0 [] =
      some { c4_g with snake := c4_g.snake.do_move (0 * SPEED) } := by
  have h1 : c4_g.snake.collide c4_g.food.bbox = false := by
    norm_num [c4_g, Snake.collide, Snake.new, Line.new, Line.get_bbox,
      Rect.overlaps, Food.bbox, Direction.as_coords, Coords.add_def,
      Coords.mul_def, SNAKE_HALF_WIDTH, SNAKE_WIDTH, FOOD_SIZE]
  have h2 : c4_g.snake.self_collide = false := rfl
  have h3 : c4_g.snake.wall_collide = false := by
    norm_num [c4_g, Snake.wall_collide, Snake.new, Line.new, Line.get_bbox,
      getLast?_one, Direction.as_coords, Coords.add_def, Coords.mul_def,
      SNAKE_HALF_WIDTH, SNAKE_WIDTH, SCREEN_SIZE]
    rw [show |(1/100 : ℚ)| = 1/100 by norm_num]
    norm_num
  exact ⟨h1, h2, h3, (update_snake_branches c4_g 0 []).2.2 h1 h2 h3⟩

theorem dropLast_one (a : Line) : [a].dropLast = [] := rfl

def c4_wrap_snake : Snake :=
  { segments := [Line.mk ⟨100, 100⟩ ⟨200, 100⟩ .RIGHT], dir := .RIGHT }

def c4_wrap_food : Food := ⟨⟨150, 90⟩⟩

def c4_wrap_food2 : Food := ⟨⟨600, 400⟩⟩

def c4_wrap_g : GameData :=
  { snake := c4_wrap_snake
    food := c4_wrap_food
    inputs := []
    input_timer := 0
    score := 2 ^ 32 - 1
    state := .Game }

def c4_wrap_rng : List Food := [c4_wrap_food2]

def c4_wrap_res : GameData :=
  { snake := c4_wrap_snake.grow FOOD_SIZE
    food := c4_wrap_food2
    inputs := []
    input_timer := 0
    score := 0
    state := .Game }

/-- Counterexample to C4 as stated: at a state whose `u32` score holds
`u32::MAX = 2 ^ 32 - 1` and whose snake collides with the food, the food
branch of `update_snake` runs, but the wrapping `+= 1` sets the score to
`0`, not to the old score plus one. -/
theorem score_wraps_at_u32_max :
    c4_wrap_g.snake.collide c4_wrap_g.food.bbox = true ∧
    c4_wrap_g.update_snake 0 c4_wrap_rng = some c4_wrap_res ∧
    c4_wrap_res.score = 0 ∧
    c4_wrap_res.score ≠ c4_wrap_g.score + 1 := by
  have hg : c4_wrap_snake.grow FOOD_SIZE =
      Snake.mk [Line.mk ⟨100, 100⟩ ⟨230, 100⟩ .RIGHT] .RIGHT := by
    simp [c4_wrap_snake, Snake.grow, getLast?_one, dropLast_one, Line.grow,
      FOOD_SIZE]
    norm_num
  have hcol : c4_wrap_snake.collide c4_wrap_food.bbox = true := by
    norm_num [c4_wrap_snake, c4_wrap_food, Snake.collide, Line.get_bbox,
      Rect.overlaps, Food.bbox, SNAKE_HALF_WIDTH, SNAKE_WIDTH, FOOD_SIZE]
  have hcol2 : (c4_wrap_snake.grow FOOD_SIZE).collide c4_wrap_food.bbox = true := by
    rw [hg]
    norm_num [c4_wrap_food, Snake.collide, Line.get_bbox, Rect.overlaps,
      Food.bbox, SNAKE_HALF_WIDTH, SNAKE_WIDTH, FOOD_SIZE]
  have hno : (c4_wrap_snake.grow FOOD_SIZE).collide c4_wrap_food2.bbox = false := by
    rw [hg]
    norm_num [c4_wrap_food2, Snake.collide, Line.get_bbox, Rect.overlaps,
      Food.bbox, SNAKE_HALF_WIDTH, SNAKE_WIDTH, FOOD_SIZE]
  refine ⟨hcol, ?_, rfl, ?_⟩
  · simp [GameData.update_snake, GameData.reset, c4_wrap_g, c4_wrap_rng,
      c4_wrap_res, regen_food, hcol, hcol2, hno]
  · simp [c4_wrap_g, c4_wrap_res]

/-- C7: whenever the food-relocation loop of `update_snake`'s food branch or
the `reset` procedure returns, the resulting food's bounding box does not
collide with the resulting snake. -/
theorem food_relocation_no_collide (g : GameData) (td : ℚ) (rng : List Food) :
    (∀ g', g.snake.collide g.food.bbox = true →
        g.update_snake td rng = some g' →
        g'.snake.collide g'.food.bbox = false) ∧
    (∀ g', g.reset rng = some g' →
        g'.snake.collide g'.food.bbox = false) := by
  constructor
  · intro g' hcol h
    rw [update_snake_food_eq g td rng hcol] at h
    simp only [Option.map_eq_some'] at h
    obtain ⟨f, hf, hg'⟩ := h
    subst hg'
    exact regen_food_no_collide _ rng g.food f hf
  · intro g' h
    exact (reset_fields g rng g' h).2.2.2.2.2

def c7_g : GameData :=
  { snake := Snake.new 400 300
    food := ⟨⟨390, 290⟩⟩
    inputs := [.UP]
    input_timer := 0
    score := 7
    state := .Game }

def c7_rng : List Food := [⟨⟨0, 0⟩⟩]

theorem fresh_snake_no_collide_origin_food :
    (Snake.new (SCREEN_SIZE.x / 2) (SCREEN_SIZE.y / 2)).collide
      (Food.mk ⟨0, 0⟩).bbox = false := by
  norm_num [Snake.collide, Snake.new, Line.new, Line.get_bbox, Rect.overlaps,
    Food.bbox, Direction.as_coords, Coords.add_def, Coords.mul_def,
    SNAKE_HALF_WIDTH, SNAKE_WIDTH, FOOD_SIZE, SCREEN_SIZE]

def c7_res : GameData :=
  { snake := Snake.new (SCREEN_SIZE.x / 2) (SCREEN_SIZE.y / 2)
    food := ⟨⟨0, 0⟩⟩
    inputs := []
    input_timer := 0
    score := 0
    state := .PreGame }

/-- Witness for C7: a concrete reset succeeds and its food does not collide
with its snake. -/
theorem food_relocation_no_collide_witness :
    c7_g.reset c7_rng = some c7_res ∧
    c7_res.snake.collide c7_res.food.bbox = false := by
  have h : c7_g.reset c7_rng = some c7_res := by
    simp [GameData.reset, c7_rng, regen_food, fresh_snake_no_collide_origin_food,
      c7_g, c7_res]
  exact ⟨h, (food_relocation_no_collide c7_g 0 c7_rng).2 c7_res h⟩

/-- C10: `reset` leaves `input_timer` unchanged, so if the timer was at or
above the threshold before the reset, the first `update_input` call after
the reset already executes the queue scan with zero further elapsed time. -/
theorem reset_preserves_input_timer (g : GameData) (rng : List Food)
    (g' : GameData) (h : g.reset rng = some g') :
    g'.input_timer = g.input_timer ∧
    (SECS_PER_INPUT_UPDATE ≤ g.input_timer → g'.scan_runs 0 = true) := by
  have ht := (reset_fields g rng g' h).2.2.2.2.1
  refine ⟨ht, fun hle => ?_⟩
  simp only [GameData.scan_runs, ht, decide_eq_true_eq]
  linarith

def c10_g : GameData :=
  { snake := Snake.new 400 300
    food := ⟨⟨390, 290⟩⟩
    inputs := [.UP, .LEFT]
    input_timer := SECS_PER_INPUT_UPDATE
    score := 3
    state := .Game }

def c10_rng : List Food := [⟨⟨0, 0⟩⟩]

def c10_res : GameData :=
  { snake := Snake.new (SCREEN_SIZE.x / 2) (SCREEN_SIZE.y / 2)
    food := ⟨⟨0, 0⟩⟩
    inputs := []
    input_timer := SECS_PER_INPUT_UPDATE
    score := 0
    state := .PreGame }

/-- Witness for C10 at a concrete reset whose pre-reset timer sits exactly
at the threshold. -/
theorem reset_preserves_input_timer_witness :
    c10_g.reset c10_rng = some c10_res ∧
    c10_res.input_timer = c10_g.input_timer ∧
    SECS_PER_INPUT_UPDATE ≤ c10_g.input_timer ∧
    c10_res.scan_runs 0 = true := by
  have h : c10_g.reset c10_rng = some c10_res := by
    simp [GameData.reset, c10_rng, regen_food, fresh_snake_no_collide_origin_food,
      c10_g, c10_res]
  have hle : SECS_PER_INPUT_UPDATE ≤ c10_g.input_timer := le_refl _
  have hmain := reset_preserves_input_timer c10_g c10_rng c10_res h
  exact ⟨h, hmain.1, hle, hmain.2 hle⟩

end Snaek
